import Mathlib

/-!
Verification development for the inpulso-ml-churn serving stack.

The definitions below are a shallow embedding of the Python sources:
  * `src/kubemini-test-ml/elector/app.py` — the traffic router
    (`_routing_order`, `_call_model`, `route_prediction`);
  * `src/common/model_utils.py` (the variant the model services import)
    — payload normalization (`_normalize_key`, `normalize_payload`), feature
    preparation (`prepare_features`, with the categorical/binary/numeric
    encoding passes, against the fixed `CHURN_FEATURES`,
    `CATEGORICAL_DUMMIES` and `BINARY_MAPPINGS` lists of
    `src/common/churn_config.py`) and the metrics-registry read
    (`registry_entry`).
Randomness (`random.uniform(0, 100)`) is modelled by an explicit rational
parameter `r`; the network is modelled by a function from endpoint key to a
`NetResult`; the filesystem state behind the registry file is modelled by a
`RegistryFile` value.
-/

namespace Churn

/-- A JSON value, as produced by `json.load` / `response.json()`. -/
inductive Json where
  | null : Json
  | bool (b : Bool) : Json
  | num (n : Int) : Json
  | str (s : String) : Json
  | arr (elems : List Json) : Json
  | obj (members : List (String × Json)) : Json


/-- One downstream HTTP interaction as seen by the router: either the
endpoint is unreachable (connection error / timeout raised by the client
session) or it answers with a status code, a text body and a JSON body. -/
inductive NetResult where
  | unreachable : NetResult
  | response (status : Nat) (text : String) (body : Json) : NetResult


/-- The Python exceptions that can escape `_call_model`:
`HTTPException(status_code, detail)` raised on a >= 400 status, or the
client-session error for an unreachable endpoint. -/
inductive PyExc where
  | httpException (status_code : Nat) (detail : String) : PyExc
  | clientError : PyExc


/-- The value returned by a successful `route_prediction`:
`{"routed_to": model_key, "response": result}`. -/
structure RouteSuccess where
  routed_to : String
  response : Json


/-- `_routing_order` from `elector/app.py`:
`primary = "canary" if random.uniform(0, 100) < CANARY_WEIGHT else "main"`,
`secondary` the other key, returning `[primary, secondary]`.  The random
draw is the explicit parameter `r`. -/
def _routing_order (canary_weight r : ℚ) : List String :=
  let primary := if r < canary_weight then "canary" else "main"
  let secondary := if primary = "canary" then "main" else "canary"
  [primary, secondary]

/-- `_call_model` from `elector/app.py`: POST to the endpoint; if the
response status is >= 400 raise `HTTPException(status, text)`, otherwise
return the JSON body.  An unreachable endpoint raises the client error. -/
def _call_model (net : String → NetResult) (model_key : String) : Except PyExc Json :=
  match net model_key with
  | .unreachable => .error .clientError
  | .response status text body =>
      if 400 ≤ status then .error (.httpException status text) else .ok body

/-- The `for model_key in _routing_order(): try ... except Exception: ...`
loop of `route_prediction`, with an explicit trace of the downstream calls
made so far.  Any exception from `_call_model` is caught and the next key is
tried; when the loop is exhausted, `HTTPException(503, "No models available")`
is raised. -/
def routeLoop (net : String → NetResult) :
    List String → List String → List String × Except PyExc RouteSuccess
  | [], calls => (calls, .error (.httpException 503 "No models available"))
  | model_key :: rest, calls =>
      match _call_model net model_key with
      | .ok result => (calls ++ [model_key], .ok ⟨model_key, result⟩)
      | .error _ => routeLoop net rest (calls ++ [model_key])

/-- `route_prediction` from `elector/app.py`, returning both the list of
downstream calls actually made and the outcome. -/
def route_prediction (net : String → NetResult) (order : List String) :
    List String × Except PyExc RouteSuccess :=
  routeLoop net order []

/-! ## Claims about the routing order -/

/-- Claim C1: for every weight and every random draw `r` in `[0,100)`, the
selection step returns `["canary", "main"]` when `r < canary_weight` and
`["main", "canary"]` otherwise; in every case the primary and the secondary
are distinct and together are exactly the two endpoint keys. -/
theorem routing_order_selects_by_weight (canary_weight r : ℚ)
    (h0 : 0 ≤ r) (h100 : r < 100) :
    (r < canary_weight → _routing_order canary_weight r = ["canary", "main"]) ∧
    (¬ r < canary_weight → _routing_order canary_weight r = ["main", "canary"]) ∧
    (∀ p s, _routing_order canary_weight r = [p, s] →
      p ≠ s ∧ ((p = "main" ∧ s = "canary") ∨ (p = "canary" ∧ s = "main"))) := by
  unfold _routing_order
  by_cases h : r < canary_weight <;>
    simp [h] <;> intro p s hp hs <;> simp [← hp, ← hs]

/-- Witness for C1: at weight 20 and draw 5, the order is canary first. -/
theorem routing_order_selects_by_weight_witness :
    _routing_order 20 5 = ["canary", "main"] :=
  (routing_order_selects_by_weight 20 5 (by norm_num) (by norm_num)).1 (by norm_num)

/-- Claim C2: with `canary_weight = 100`, every draw in `[0,100)` selects
canary as the primary endpoint. -/
theorem routing_order_weight100_always_canary (r : ℚ)
    (h0 : 0 ≤ r) (h100 : r < 100) :
    (_routing_order 100 r).head? = some "canary" := by
  simp [_routing_order, h100]

/-- Witness for C2: the draw 99 selects canary as primary at weight 100. -/
theorem routing_order_weight100_always_canary_witness :
    (_routing_order 100 99).head? = some "canary" :=
  routing_order_weight100_always_canary 99 (by norm_num) (by norm_num)

/-! ## Claims about routing with failover -/

/-- Claim C3: when both downstream calls fail, `route_prediction` returns no
prediction result: it fails with `HTTPException(503, "No models available")`
after exactly the two calls of the routing order, with no further retries. -/
theorem route_prediction_both_fail (canary_weight r : ℚ) (net : String → NetResult)
    (hmain : ∀ result, _call_model net "main" ≠ .ok result)
    (hcanary : ∀ result, _call_model net "canary" ≠ .ok result) :
    route_prediction net (_routing_order canary_weight r) =
      (_routing_order canary_weight r,
        .error (.httpException 503 "No models available")) := by
  have hm : ∃ e, _call_model net "main" = .error e := by
    cases h : _call_model net "main" with
    | ok v => exact absurd h (hmain v)
    | error e => exact ⟨e, rfl⟩
  have hc : ∃ e, _call_model net "canary" = .error e := by
    cases h : _call_model net "canary" with
    | ok v => exact absurd h (hcanary v)
    | error e => exact ⟨e, rfl⟩
  obtain ⟨em, hm⟩ := hm
  obtain ⟨ec, hc⟩ := hc
  unfold _routing_order
  by_cases h : r < canary_weight <;>
    simp [h, route_prediction, routeLoop, hm, hc]

/-- Witness for C3: with every endpoint unreachable and weight 20, draw 50,
the router calls main then canary and fails with the 503. -/
theorem route_prediction_both_fail_witness :
    route_prediction (fun _ => NetResult.unreachable) (_routing_order 20 50) =
      (_routing_order 20 50, .error (.httpException 503 "No models available")) :=
  route_prediction_both_fail 20 50 (fun _ => NetResult.unreachable)
    (fun result h => by simp [_call_model] at h)
    (fun result h => by simp [_call_model] at h)

/-- Claim C4: when the primary call fails and the secondary call succeeds,
`route_prediction` succeeds with `routed_to` equal to the secondary's key and
exactly two downstream calls are made. -/
theorem route_prediction_failover (canary_weight r : ℚ) (net : String → NetResult)
    (p s : String) (horder : _routing_order canary_weight r = [p, s])
    (resp : Json)
    (hp : ∀ result, _call_model net p ≠ .ok result)
    (hs : _call_model net s = .ok resp) :
    route_prediction net (_routing_order canary_weight r) = ([p, s], .ok ⟨s, resp⟩) ∧
    (route_prediction net (_routing_order canary_weight r)).1.length = 2 := by
  have hpe : ∃ e, _call_model net p = .error e := by
    cases h : _call_model net p with
    | ok v => exact absurd h (hp v)
    | error e => exact ⟨e, rfl⟩
  obtain ⟨ep, hpe⟩ := hpe
  rw [horder]
  simp [route_prediction, routeLoop, hpe, hs]

/-- Witness for C4: weight 20 and draw 50 route to main first; main is
unreachable, canary answers 200, and the router returns the canary result
after exactly two calls. -/
theorem route_prediction_failover_witness :
    route_prediction
        (fun k => if k = "canary" then NetResult.response 200 "ok" (Json.obj []) else NetResult.unreachable)
        (_routing_order 20 50) =
      (["main", "canary"], .ok ⟨"canary", Json.obj []⟩) :=
  (route_prediction_failover 20 50
    (fun k => if k = "canary" then NetResult.response 200 "ok" (Json.obj []) else NetResult.unreachable)
    "main" "canary" (by norm_num [_routing_order]) (Json.obj [])
    (fun result h => by simp [_call_model] at h)
    (by simp [_call_model])).1

/-- Claim C5: every invocation makes at most two downstream calls, and at
most one of them succeeds: when the outcome is a success, the successful key
is the last call made (the function returned immediately after it) and every
earlier call failed. -/
theorem route_prediction_at_most_two_calls (canary_weight r : ℚ)
    (net : String → NetResult) :
    (route_prediction net (_routing_order canary_weight r)).1.length ≤ 2 ∧
    (∀ success,
      (route_prediction net (_routing_order canary_weight r)).2 = .ok success →
      (route_prediction net (_routing_order canary_weight r)).1.getLast? =
          some success.routed_to ∧
      _call_model net success.routed_to = .ok success.response ∧
      ∀ k ∈ (route_prediction net (_routing_order canary_weight r)).1.dropLast,
        ∀ result, _call_model net k ≠ .ok result) := by
  have main2 : ∀ a b : String,
      (route_prediction net [a, b]).1.length ≤ 2 ∧
      (∀ success, (route_prediction net [a, b]).2 = .ok success →
        (route_prediction net [a, b]).1.getLast? = some success.routed_to ∧
        _call_model net success.routed_to = .ok success.response ∧
        ∀ k ∈ (route_prediction net [a, b]).1.dropLast,
          ∀ result, _call_model net k ≠ .ok result) := by
    intro a b
    cases ha : _call_model net a with
    | ok va =>
        refine ⟨by simp [route_prediction, routeLoop, ha], ?_⟩
        intro success hsuccess
        simp [route_prediction, routeLoop, ha] at hsuccess ⊢
        simp [← hsuccess, ha]
    | error ea =>
        cases hb : _call_model net b with
        | ok vb =>
            refine ⟨by simp [route_prediction, routeLoop, ha, hb], ?_⟩
            intro success hsuccess
            simp [route_prediction, routeLoop, ha, hb] at hsuccess ⊢
            simp [← hsuccess, ha, hb]
        | error eb =>
            refine ⟨by simp [route_prediction, routeLoop, ha, hb], ?_⟩
            intro success hsuccess
            simp [route_prediction, routeLoop, ha, hb] at hsuccess
  unfold _routing_order
  by_cases h : r < canary_weight <;> simp only [h] <;> simp <;>
    exact main2 _ _

/-- Witness for C5: with both endpoints answering 200, weight 20 and draw 50
route to main first; exactly one call is made and it is the last one. -/
theorem route_prediction_at_most_two_calls_witness :
    (route_prediction (fun _ => NetResult.response 200 "ok" (Json.obj []))
        (_routing_order 20 50)).1.length ≤ 2 ∧
    (route_prediction (fun _ => NetResult.response 200 "ok" (Json.obj []))
        (_routing_order 20 50)).1.getLast? = some "main" := by
  have h := route_prediction_at_most_two_calls 20 50
    (fun _ => NetResult.response 200 "ok" (Json.obj []))
  refine ⟨h.1, ?_⟩
  have h2 := h.2 ⟨"main", Json.obj []⟩ (by rfl)
  exact h2.1

/-- Counterexample to claim C6: with weight 20 and draw 50 the primary is
main; main answers 400 ("bad payload") — a ValidationError — yet the router
does retry the secondary: canary is called, and the caller receives the
canary success, not the 400. -/
theorem validation_error_is_retried_counterexample :
    route_prediction
        (fun k => if k = "main" then NetResult.response 400 "bad payload" Json.null
                  else NetResult.response 200 "ok" (Json.obj []))
        (_routing_order 20 50) =
      (["main", "canary"], .ok ⟨"canary", Json.obj []⟩) := rfl

/-- Claim C6 as amended: a 400 `ValidationError` from the primary is caught
like any other downstream failure and the secondary is retried; the 400
status is never surfaced to the caller — the outcome is either the
secondary's success or the 503 `HTTPException` when the secondary also
fails. -/
theorem validation_error_is_retried (canary_weight r : ℚ)
    (net : String → NetResult) (p s : String)
    (horder : _routing_order canary_weight r = [p, s])
    (text : String) (body : Json)
    (hp : net p = .response 400 text body) :
    (route_prediction net (_routing_order canary_weight r)).1 = [p, s] ∧
    ((∃ resp, (route_prediction net (_routing_order canary_weight r)).2 =
        .ok ⟨s, resp⟩) ∨
      (route_prediction net (_routing_order canary_weight r)).2 =
        .error (.httpException 503 "No models available")) := by
  have hpe : _call_model net p = .error (.httpException 400 text) := by
    simp [_call_model, hp]
  rw [horder]
  cases hs : _call_model net s with
  | ok resp =>
      exact ⟨by simp [route_prediction, routeLoop, hpe, hs],
        Or.inl ⟨resp, by simp [route_prediction, routeLoop, hpe, hs]⟩⟩
  | error es =>
      exact ⟨by simp [route_prediction, routeLoop, hpe, hs],
        Or.inr (by simp [route_prediction, routeLoop, hpe, hs])⟩

/-- Witness for the amended C6: main answers 400 and canary is unreachable;
both keys are called and the outcome is the 503, not the 400. -/
theorem validation_error_is_retried_witness :
    (route_prediction
        (fun k => if k = "main" then NetResult.response 400 "bad payload" Json.null
                  else NetResult.unreachable)
        (_routing_order 20 50)).1 = ["main", "canary"] := by
  have h := validation_error_is_retried 20 50
    (fun k => if k = "main" then NetResult.response 400 "bad payload" Json.null
              else NetResult.unreachable)
    "main" "canary" (by norm_num [_routing_order]) "bad payload" Json.null (by simp)
  exact h.1

/-! ## Payload normalization (`common/model_utils.py`)

Keys are modelled as lists of characters; a Python `dict` is modelled as an
association list without duplicate keys, where insertion of an existing key
updates it in place and insertion of a new key appends it, matching Python's
dictionary iteration-order semantics. -/

/-- The whitespace characters removed by Python's `str.strip` (ASCII part). -/
def isPyWhitespace (c : Char) : Bool :=
  c == ' ' || c == '\t' || c == '\n' || c == '\r' || c == '\x0b' || c == '\x0c'

/-- Python `str.strip()`: drop leading and trailing whitespace. -/
def pyStrip (s : List Char) : List Char :=
  ((s.dropWhile isPyWhitespace).reverse.dropWhile isPyWhitespace).reverse

/-- Python `str.lower()` (ASCII case mapping). -/
def pyLower (s : List Char) : List Char :=
  s.map Char.toLower

/-- Python `str.replace(target, "")`: delete every occurrence of `target`. -/
def pyReplaceDel (target : Char) (s : List Char) : List Char :=
  s.filter (fun c => c != target)

/-- `_normalize_key` from `common/model_utils.py`:
`key.strip().lower().replace(" ", "").replace("_", "").replace("/", "")`. -/
def _normalize_key (key : List Char) : List Char :=
  pyReplaceDel '/' (pyReplaceDel '_' (pyReplaceDel ' ' (pyLower (pyStrip key))))

/-- `normalized[k] = value` on a Python dict: update in place when the key
exists, append otherwise. -/
def dictInsert {α : Type} (m : List (List Char × α)) (k : List Char) (v : α) :
    List (List Char × α) :=
  if m.any (fun kv => kv.1 == k) then
    m.map (fun kv => if kv.1 == k then (k, v) else kv)
  else m ++ [(k, v)]

/-- `normalize_payload` from `common/model_utils.py`: build a fresh dict by
inserting `_normalize_key(key) ↦ value` for each payload item in order. -/
def normalize_payload {α : Type} (payload : List (List Char × α)) :
    List (List Char × α) :=
  payload.foldl (fun acc kv => dictInsert acc (_normalize_key kv.1) kv.2) []

/-! ### Character-level lemmas -/

theorem char_ofNat_toNat (n : Nat) (h : n.isValidChar) : (Char.ofNat n).toNat = n := by
  rw [Char.ofNat, dif_pos h]
  simp [Char.ofNatAux, Char.toNat, UInt32.toNat]

theorem toLower_eq_or (c : Char) :
    c.toLower = c ∨ (97 ≤ c.toLower.toNat ∧ c.toLower.toNat ≤ 122) := by
  by_cases h : c.toNat ≥ 65 ∧ c.toNat ≤ 90
  · right
    simp only [Char.toLower, if_pos h]
    have hv : (c.toNat + 32).isValidChar := Or.inl (by omega)
    rw [char_ofNat_toNat _ hv]
    omega
  · left
    simp only [Char.toLower, if_neg h]

theorem toLower_of_not_upper (c : Char) (h : ¬ (c.toNat ≥ 65 ∧ c.toNat ≤ 90)) :
    c.toLower = c := by
  simp only [Char.toLower, if_neg h]

theorem toLower_toLower (c : Char) : c.toLower.toLower = c.toLower := by
  rcases toLower_eq_or c with h | h
  · rw [h]; exact h
  · exact toLower_of_not_upper _ (by omega)

theorem isPyWhitespace_toNat_le {c : Char} (h : isPyWhitespace c = true) :
    c.toNat ≤ 32 := by
  simp only [isPyWhitespace, Bool.or_eq_true, beq_iff_eq] at h
  rcases h with ((((h | h) | h) | h) | h) | h <;> subst h <;> decide

theorem isPyWhitespace_toLower {c : Char} (h : isPyWhitespace c.toLower = true) :
    isPyWhitespace c = true := by
  rcases toLower_eq_or c with he | he
  · rwa [he] at h
  · have := isPyWhitespace_toNat_le h
    omega

/-! ### Fixed-point facts about `_normalize_key` -/

theorem dropWhile_eq_self_of {p : Char → Bool} {l : List Char}
    (h : ∀ c ∈ l, p c = false) : l.dropWhile p = l := by
  cases l with
  | nil => rfl
  | cons a l => simp [List.dropWhile_cons, h a (by simp)]

theorem mem_pyStrip {c : Char} {s : List Char} (h : c ∈ pyStrip s) : c ∈ s := by
  unfold pyStrip at h
  rw [List.mem_reverse] at h
  have h1 := (List.dropWhile_sublist (l := (s.dropWhile isPyWhitespace).reverse)
    (p := isPyWhitespace)).subset h
  rw [List.mem_reverse] at h1
  exact (List.dropWhile_sublist (l := s) (p := isPyWhitespace)).subset h1

theorem normalize_key_char_facts {key : List Char}
    (hkey : ∀ ch ∈ key, isPyWhitespace ch = true → ch = ' ')
    {c : Char} (hc : c ∈ _normalize_key key) :
    isPyWhitespace c = false ∧ (c != ' ') = true ∧ (c != '_') = true ∧
      (c != '/') = true ∧ c.toLower = c := by
  unfold _normalize_key pyReplaceDel at hc
  simp only [List.mem_filter] at hc
  obtain ⟨⟨⟨hmem, hsp⟩, hund⟩, hsl⟩ := hc
  unfold pyLower at hmem
  rw [List.mem_map] at hmem
  obtain ⟨c0, hc0, hc0eq⟩ := hmem
  refine ⟨?_, hsp, hund, hsl, ?_⟩
  · by_contra hws
    rw [Bool.not_eq_false] at hws
    have hws0 : isPyWhitespace c0 = true := isPyWhitespace_toLower (by rwa [hc0eq])
    have : c0 = ' ' := hkey c0 (mem_pyStrip hc0) hws0
    rw [this] at hc0eq
    rw [show (' '.toLower) = ' ' from rfl] at hc0eq
    rw [← hc0eq] at hsp
    simp at hsp
  · rw [← hc0eq]
    exact toLower_toLower c0

theorem normalize_key_fixed {key : List Char}
    (hkey : ∀ ch ∈ key, isPyWhitespace ch = true → ch = ' ') :
    _normalize_key (_normalize_key key) = _normalize_key key := by
  have hfacts : ∀ c ∈ _normalize_key key,
      isPyWhitespace c = false ∧ (c != ' ') = true ∧ (c != '_') = true ∧
        (c != '/') = true ∧ c.toLower = c :=
    fun c hc => normalize_key_char_facts hkey hc
  have hstrip : pyStrip (_normalize_key key) = _normalize_key key := by
    unfold pyStrip
    rw [dropWhile_eq_self_of (fun c hc => (hfacts c hc).1),
      dropWhile_eq_self_of (fun c hc => (hfacts c (List.mem_reverse.mp hc)).1),
      List.reverse_reverse]
  have hlower : pyLower (_normalize_key key) = _normalize_key key := by
    unfold pyLower
    rw [List.map_congr_left (fun c hc => (hfacts c hc).2.2.2.2)]
    exact List.map_id _
  have hsp : pyReplaceDel ' ' (_normalize_key key) = _normalize_key key :=
    List.filter_eq_self.mpr (fun c hc => (hfacts c hc).2.1)
  have hund : pyReplaceDel '_' (_normalize_key key) = _normalize_key key :=
    List.filter_eq_self.mpr (fun c hc => (hfacts c hc).2.2.1)
  have hsl : pyReplaceDel '/' (_normalize_key key) = _normalize_key key :=
    List.filter_eq_self.mpr (fun c hc => (hfacts c hc).2.2.2.1)
  conv_lhs => rw [_normalize_key, hstrip, hlower, hsp, hund, hsl]

/-! ### Dictionary-level lemmas -/

theorem dictInsert_keys {α : Type} (m : List (List Char × α)) (k : List Char) (v : α) :
    (dictInsert m k v).map Prod.fst =
      if m.any (fun kv => kv.1 == k) then m.map Prod.fst
      else m.map Prod.fst ++ [k] := by
  unfold dictInsert
  split
  · rw [List.map_map]
    apply List.map_congr_left
    intro kv _
    simp only [Function.comp_apply]
    split
    · next hkv => simp only [beq_iff_eq] at hkv; exact hkv.symm
    · rfl
  · simp

theorem dictInsert_keys_nodup {α : Type} {m : List (List Char × α)}
    (k : List Char) (v : α) (h : (m.map Prod.fst).Nodup) :
    ((dictInsert m k v).map Prod.fst).Nodup := by
  rw [dictInsert_keys]
  split
  · exact h
  · next hany =>
    have hk : k ∉ m.map Prod.fst := by
      intro hmem
      rw [List.mem_map] at hmem
      obtain ⟨kv, hkv, hfst⟩ := hmem
      exact hany (List.any_eq_true.mpr ⟨kv, hkv, by simp [hfst]⟩)
    simp [List.nodup_append, h, hk]

theorem normalize_payload_keys_from {α : Type} (payload : List (List Char × α)) :
    ∀ acc : List (List Char × α),
      ∀ k ∈ (payload.foldl
          (fun acc kv => dictInsert acc (_normalize_key kv.1) kv.2) acc).map Prod.fst,
        k ∈ acc.map Prod.fst ∨ ∃ kv ∈ payload, k = _normalize_key kv.1 := by
  induction payload with
  | nil => intro acc k hk; exact Or.inl hk
  | cons hd tl ih =>
    intro acc k hk
    simp only [List.foldl_cons] at hk
    rcases ih _ k hk with hmem | ⟨kv, hkv, hkeq⟩
    · rw [dictInsert_keys] at hmem
      split at hmem
      · exact Or.inl hmem
      · rcases List.mem_append.mp hmem with h | h
        · exact Or.inl h
        · rw [List.mem_singleton] at h
          exact Or.inr ⟨hd, by simp, h⟩
    · exact Or.inr ⟨kv, by simp [hkv], hkeq⟩

theorem normalize_payload_nodup_from {α : Type} (payload : List (List Char × α)) :
    ∀ acc : List (List Char × α), (acc.map Prod.fst).Nodup →
      ((payload.foldl
          (fun acc kv => dictInsert acc (_normalize_key kv.1) kv.2) acc).map
        Prod.fst).Nodup := by
  induction payload with
  | nil => intro acc h; exact h
  | cons hd tl ih =>
    intro acc h
    simp only [List.foldl_cons]
    exact ih _ (dictInsert_keys_nodup _ _ h)

theorem foldl_insert_of_fixed {α : Type} (m : List (List Char × α)) :
    ∀ acc : List (List Char × α),
      (∀ kv ∈ m, _normalize_key kv.1 = kv.1) →
      (acc.map Prod.fst ++ m.map Prod.fst).Nodup →
      m.foldl (fun acc kv => dictInsert acc (_normalize_key kv.1) kv.2) acc =
        acc ++ m := by
  induction m with
  | nil => intro acc _ _; simp
  | cons hd tl ih =>
    intro acc hfix hnodup
    simp only [List.foldl_cons]
    have hfhd : _normalize_key hd.1 = hd.1 := hfix hd (by simp)
    have hnotin : hd.1 ∉ acc.map Prod.fst := by
      intro hmem
      rw [List.map_cons, List.nodup_append] at hnodup
      exact hnodup.2.2 hmem (List.mem_cons_self _ _)
    have hnoany : ¬ acc.any (fun kv => kv.1 == hd.1) = true := by
      intro hany
      obtain ⟨kv, hkv, hkveq⟩ := List.any_eq_true.mp hany
      rw [beq_iff_eq] at hkveq
      exact hnotin (List.mem_map.mpr ⟨kv, hkv, hkveq⟩)
    have hstep : dictInsert acc (_normalize_key hd.1) hd.2 = acc ++ [hd] := by
      rw [hfhd]
      unfold dictInsert
      rw [if_neg hnoany]
    rw [hstep, ih (acc ++ [hd]) (fun kv hkv => hfix kv (by simp [hkv])) (by
      simpa using hnodup)]
    simp

/-! ### Claims about `normalize_payload` -/

/-- Counterexample to claim C9: `normalize_payload` is not idempotent.  The
key `"_\ta"` normalizes to `"\ta"` — deleting the underscore exposes the
interior tab as a leading whitespace character, so the produced key is not a
fixed point of `_normalize_key` and a second normalization pass strips it
further (to `"a"`). -/
theorem normalize_payload_not_idempotent :
    _normalize_key ("_\ta".toList) = "\ta".toList ∧
    _normalize_key ("\ta".toList) = "a".toList ∧
    normalize_payload (normalize_payload [("_\ta".toList, (0 : Int))]) ≠
      normalize_payload [("_\ta".toList, (0 : Int))] := by
  refine ⟨by decide, by decide, by decide⟩

/-- Claim C9 as amended: `normalize_payload` is idempotent on every payload
whose keys contain no whitespace other than the plain space character; for
such keys every key produced by `_normalize_key` is a fixed point of
`_normalize_key`. -/
theorem normalize_payload_idempotent {α : Type} (payload : List (List Char × α))
    (h : ∀ kv ∈ payload, ∀ ch ∈ kv.1, isPyWhitespace ch = true → ch = ' ') :
    normalize_payload (normalize_payload payload) = normalize_payload payload := by
  have hkeys : ∀ kv ∈ normalize_payload payload, _normalize_key kv.1 = kv.1 := by
    intro kv hkv
    have hmem : kv.1 ∈ (normalize_payload payload).map Prod.fst :=
      List.mem_map.mpr ⟨kv, hkv, rfl⟩
    rcases normalize_payload_keys_from payload [] kv.1 hmem with h0 | ⟨kv0, hkv0, heq⟩
    · simp at h0
    · rw [heq]
      exact normalize_key_fixed (h kv0 hkv0)
  have hnodup := normalize_payload_nodup_from payload [] (by simp)
  conv_lhs => rw [normalize_payload]
  rw [foldl_insert_of_fixed _ [] hkeys (by simpa using hnodup)]
  simp

/-- Witness for the amended C9: a payload with ordinary keys (spaces,
underscores, mixed case) is unchanged by a second normalization pass. -/
theorem normalize_payload_idempotent_witness :
    normalize_payload (normalize_payload
        [("Job Role".toList, (1 : Int)), ("monthly_income".toList, 2)]) =
      normalize_payload [("Job Role".toList, (1 : Int)), ("monthly_income".toList, 2)] :=
  normalize_payload_idempotent _ (by decide)

/-- Claim C10: `normalize_payload` can merge distinct input keys: `"Job Role"`
and `"jobrole"` are distinct keys with the same normalized form, and on a
payload containing both, the output has fewer entries than the input and the
later value silently overwrites the earlier one. -/
theorem normalize_payload_merges_keys :
    _normalize_key ("Job Role".toList) = _normalize_key ("jobrole".toList) ∧
    "Job Role".toList ≠ "jobrole".toList ∧
    normalize_payload [("Job Role".toList, (1 : Int)), ("jobrole".toList, 2)] =
      [("jobrole".toList, 2)] ∧
    (normalize_payload [("Job Role".toList, (1 : Int)), ("jobrole".toList, 2)]).length <
      ([("Job Role".toList, (1 : Int)), ("jobrole".toList, 2)]).length := by
  refine ⟨by decide, by decide, by decide, by decide⟩

/-! ## Feature preparation (`prepare_features`) -/

/-- `CHURN_FEATURES` from `common/churn_config.py`: the fixed, ordered
feature list. -/
def CHURN_FEATURES : List (List Char) :=
  (["age", "businesstravel", "dailyrate", "department", "distancefromhome",
    "education", "educationfield", "environmentsatisfaction", "gender",
    "hourlyrate", "jobinvolvement", "joblevel", "jobrole",
    "disobediencerules", "jobsatisfaction", "maritalstatus", "monthlyincome",
    "monthlyrate", "numcompaniesworked", "overtime", "percentsalaryhike",
    "performancerating", "relationshipsatisfaction", "stockoptionlevel",
    "totalworkingyears", "trainingtimeslastyear", "worklifebalance",
    "yearsatcompany", "yearsincurrentrole", "yearssincelastpromotion",
    "yearswithcurrmanager"] : List String).map String.toList

/-- `CATEGORICAL_DUMMIES` from `common/churn_config.py`: the columns run
through the categorical `astype(str).str.strip().str.lower()` pass. -/
def CATEGORICAL_DUMMIES : List (List Char) :=
  (["businesstravel", "department", "education", "educationfield",
    "environmentsatisfaction", "gender", "jobinvolvement", "joblevel",
    "jobrole", "maritalstatus"] : List String).map String.toList

/-- `BINARY_MAPPINGS` from `common/churn_config.py`: the columns run through
the `bin_map` pass. -/
def BINARY_MAPPINGS : List (List Char) :=
  (["overtime", "disobediencerules"] : List String).map String.toList

/-- A cell of the one-row frame: the null marker `pd.NA`, the float `NaN`
(produced when `Series.map` finds no mapping for a value, and by
`pd.to_numeric` on a missing value), or a scalar.  The payload scalars are
modelled as strings, integers and booleans; fractional floats and `None`
are outside the modelled universe. -/
inductive PyVal where
  | na : PyVal
  | nan : PyVal
  | str (s : List Char) : PyVal
  | int (n : Int) : PyVal
  | bool (b : Bool) : PyVal
deriving DecidableEq

/-- Python `str(value)`, as applied cell-wise by `astype(str)`:
`str(pd.NA)` is the string `"<NA>"` and `str(float("nan"))` is `"nan"`. -/
def pyStrOf : PyVal → List Char
  | .na => "<NA>".toList
  | .nan => "nan".toList
  | .str s => s
  | .int n => (toString n).toList
  | .bool true => "True".toList
  | .bool false => "False".toList

/-- One cell of `frame[col].astype(str).str.strip().str.lower()`. -/
def catNormalize (v : PyVal) : PyVal :=
  .str (pyLower (pyStrip (pyStrOf v)))

/-- One cell of `frame[col].map(bin_map)` with
`bin_map = {"yes": 1, "no": 0, True: 1, False: 0, 1: 1, 0: 0}`.  In a
Python dict the keys `True`/`1` and `False`/`0` coincide, so the effective
mapping sends `"yes"`, `True` and `1` to `1` and `"no"`, `False` and `0` to
`0`; every other value — the missing markers included — has no mapping and
becomes `NaN`. -/
def binMapLookup : PyVal → PyVal
  | .str s =>
      if s = "yes".toList then .int 1
      else if s = "no".toList then .int 0
      else .nan
  | .bool b => if b then .int 1 else .int 0
  | .int n => if n = 1 then .int 1 else if n = 0 then .int 0 else .nan
  | _ => .nan

/-- An unsigned decimal integer literal. -/
def parseNatDigits (s : List Char) : Option Nat :=
  if s ≠ [] ∧ s.all Char.isDigit then
    some (s.foldl (fun n c => n * 10 + (c.toNat - 48)) 0)
  else none

/-- One cell of `pd.to_numeric(frame[col], errors="ignore")`: numbers are
kept, booleans are kept, the missing markers (`pd.NA`, `NaN`) are read back
as the float `NaN`, decimal integer strings are parsed, and any other
string is returned unchanged (`errors="ignore"` returns the input when the
parse fails). -/
def toNumeric : PyVal → PyVal
  | .na => .nan
  | .nan => .nan
  | .int n => .int n
  | .bool b => .bool b
  | .str s =>
      match s with
      | '-' :: rest =>
          match parseNatDigits rest with
          | some n => .int (-(n : Int))
          | none => .str s
      | '+' :: rest =>
          match parseNatDigits rest with
          | some n => .int (n : Int)
          | none => .str s
      | _ =>
          match parseNatDigits s with
          | some n => .int ((n : Int))
          | none => .str s

/-- The `for column in CHURN_FEATURES: if column not in frame.columns:
frame[column] = pd.NA` fill loop, over an arbitrary column list. -/
def fillColumns (cols : List (List Char)) (frame : List (List Char × PyVal)) :
    List (List Char × PyVal) :=
  cols.foldl
    (fun f column =>
      if f.any (fun kv => kv.1 == column) then f else f ++ [(column, PyVal.na)])
    frame

/-- The categorical pass `for col in CATEGORICAL_DUMMIES: if col in
frame.columns: frame[col] = frame[col].astype(str).str.strip().str.lower()`:
cell-wise rewrite of every column named in `CATEGORICAL_DUMMIES` (the frame
has no duplicate columns, so the per-column loop is a map over entries). -/
def applyCategorical (frame : List (List Char × PyVal)) : List (List Char × PyVal) :=
  frame.map (fun kv =>
    if kv.1 ∈ CATEGORICAL_DUMMIES then (kv.1, catNormalize kv.2) else kv)

/-- The binary pass `for col in BINARY_MAPPINGS: if col in frame.columns:
frame[col] = frame[col].map(bin_map)`. -/
def applyBinary (frame : List (List Char × PyVal)) : List (List Char × PyVal) :=
  frame.map (fun kv =>
    if kv.1 ∈ BINARY_MAPPINGS then (kv.1, binMapLookup kv.2) else kv)

/-- The numeric pass `for col in frame.columns: if col not in
CATEGORICAL_DUMMIES: frame[col] = pd.to_numeric(frame[col], errors="ignore")`. -/
def applyToNumeric (frame : List (List Char × PyVal)) : List (List Char × PyVal) :=
  frame.map (fun kv =>
    if kv.1 ∈ CATEGORICAL_DUMMIES then kv else (kv.1, toNumeric kv.2))

/-- Column projection `frame[c]` (after the fill loop every selected column
is present; a missing column is read as the null marker). -/
def colGet (frame : List (List Char × PyVal)) (c : List Char) : PyVal :=
  match frame.find? (fun kv => kv.1 == c) with
  | some kv => kv.2
  | none => PyVal.na

/-- `prepare_features` from `src/common/model_utils.py`, the variant the
model services import: normalize the payload, build the one-row frame, fill
the missing churn features with `pd.NA`, run the categorical, binary and
numeric encoding passes, and select `frame[CHURN_FEATURES]`. -/
def prepare_features (payload : List (List Char × PyVal)) :
    List (List Char × PyVal) :=
  let frame := fillColumns CHURN_FEATURES (normalize_payload payload)
  let frame := applyCategorical frame
  let frame := applyBinary frame
  let frame := applyToNumeric frame
  CHURN_FEATURES.map (fun c => (c, colGet frame c))

/-- The first entry found for a column in the filled frame: the frame's own
entry when the column is present, the appended `pd.NA` entry when the column
is among the filled ones, `none` otherwise. -/
theorem fillColumns_find (cols : List (List Char)) :
    ∀ (frame : List (List Char × PyVal)) (c : List Char),
      (fillColumns cols frame).find? (fun kv => kv.1 == c) =
        ((frame.find? (fun kv => kv.1 == c)).orElse
          (fun _ => if c ∈ cols then some (c, PyVal.na) else none)) := by
  induction cols with
  | nil =>
    intro frame c
    simp only [fillColumns, List.foldl_nil, List.not_mem_nil, if_false]
    cases frame.find? (fun kv => kv.1 == c) <;> rfl
  | cons col cols ih =>
    intro frame c
    simp only [fillColumns, List.foldl_cons] at ih ⊢
    by_cases hpresent : frame.any (fun kv => kv.1 == col) = true
    · rw [if_pos hpresent, ih]
      by_cases hc : c = col
      · subst hc
        obtain ⟨kv, hkv, hkveq⟩ := List.any_eq_true.mp hpresent
        have : frame.find? (fun kv => kv.1 == c) ≠ none := by
          rw [Ne, List.find?_eq_none]
          intro hnone
          exact hnone kv hkv hkveq
        cases hfind : frame.find? (fun kv => kv.1 == c) with
        | some kv' => simp [List.mem_cons]
        | none => exact absurd hfind this
      · simp only [List.mem_cons, eq_false hc, false_or]
    · rw [if_neg hpresent, ih]
      have hnone : frame.find? (fun kv => kv.1 == col) = none := by
        rw [List.find?_eq_none]
        intro kv hkv hkveq
        exact hpresent (List.any_eq_true.mpr ⟨kv, hkv, hkveq⟩)
      rw [List.find?_append]
      by_cases hc : c = col
      · subst hc
        rw [hnone]
        simp [List.mem_cons]
      · have hbeq : (col == c) = false := by
          simp [Ne.symm hc]
        have hsingle : ([(col, PyVal.na)].find? (fun kv => kv.1 == c)) = none := by
          simp [List.find?, hbeq]
        rw [hsingle]
        simp only [List.mem_cons, eq_false hc, false_or]
        cases frame.find? (fun kv => kv.1 == c) <;> rfl

/-- `find?` by column name commutes with a key-preserving cell rewrite. -/
theorem find?_map_keyed (g : (List Char × PyVal) → (List Char × PyVal))
    (hg : ∀ kv, (g kv).1 = kv.1) (frame : List (List Char × PyVal))
    (c : List Char) :
    (frame.map g).find? (fun kv => kv.1 == c) =
      (frame.find? (fun kv => kv.1 == c)).map g := by
  induction frame with
  | nil => rfl
  | cons kv tl ih =>
    simp only [List.map_cons, List.find?, hg kv]
    cases hbeq : (kv.1 == c) with
    | true => rfl
    | false => exact ih

/-- Counterexample to claim C7: on the empty payload the feature
`businesstravel` is absent, yet the returned frame holds the string
`"<na>"` for it, not the null marker `pd.NA` — the categorical pass
`astype(str)` stringifies the `pd.NA` fill before the final column
selection. -/
theorem prepare_features_na_becomes_string :
    ("businesstravel".toList, PyVal.str ("<na>".toList)) ∈ prepare_features [] ∧
    ("businesstravel".toList, PyVal.na) ∉ prepare_features [] := by
  refine ⟨by decide, by decide⟩

/-- Claim C7 as amended: for every payload the returned frame has exactly
the columns `CHURN_FEATURES` in that fixed order and every payload key
outside the feature list is silently dropped; every absent feature is
filled with `pd.NA`, but the encoding passes transform the marker before
the frame is returned: an absent categorical feature comes back as the
string `"<na>"` and every other absent feature as the missing marker
`NaN`. -/
theorem prepare_features_encodes (payload : List (List Char × PyVal)) :
    (prepare_features payload).map Prod.fst = CHURN_FEATURES ∧
    (∀ k, k ∉ CHURN_FEATURES → ∀ v, (k, v) ∉ prepare_features payload) ∧
    (∀ c ∈ CHURN_FEATURES, c ∉ (normalize_payload payload).map Prod.fst →
      (c ∈ CATEGORICAL_DUMMIES →
        (c, PyVal.str ("<na>".toList)) ∈ prepare_features payload) ∧
      (c ∉ CATEGORICAL_DUMMIES →
        (c, PyVal.nan) ∈ prepare_features payload)) := by
  have h1 : (prepare_features payload).map Prod.fst = CHURN_FEATURES := by
    unfold prepare_features
    rw [List.map_map]
    simp [Function.comp_def]
  refine ⟨h1, ?_, ?_⟩
  · intro k hk v hmem
    apply hk
    rw [← h1, List.mem_map]
    exact ⟨(k, v), hmem, rfl⟩
  · intro c hc hcabsent
    have hfind0 : (normalize_payload payload).find? (fun kv => kv.1 == c) = none := by
      rw [List.find?_eq_none]
      intro kv hkv hbeq
      rw [beq_iff_eq] at hbeq
      exact hcabsent (List.mem_map.mpr ⟨kv, hkv, hbeq⟩)
    have hfill : (fillColumns CHURN_FEATURES (normalize_payload payload)).find?
        (fun kv => kv.1 == c) = some (c, PyVal.na) := by
      rw [fillColumns_find, hfind0]
      simp [hc]
    have hkey1 : ∀ kv : List Char × PyVal,
        ((fun kv : List Char × PyVal =>
          if kv.1 ∈ CATEGORICAL_DUMMIES then (kv.1, catNormalize kv.2) else kv) kv).1 =
          kv.1 := by
      intro kv
      dsimp only
      split <;> rfl
    have hkey2 : ∀ kv : List Char × PyVal,
        ((fun kv : List Char × PyVal =>
          if kv.1 ∈ BINARY_MAPPINGS then (kv.1, binMapLookup kv.2) else kv) kv).1 =
          kv.1 := by
      intro kv
      dsimp only
      split <;> rfl
    have hkey3 : ∀ kv : List Char × PyVal,
        ((fun kv : List Char × PyVal =>
          if kv.1 ∈ CATEGORICAL_DUMMIES then kv else (kv.1, toNumeric kv.2)) kv).1 =
          kv.1 := by
      intro kv
      dsimp only
      split <;> rfl
    have hcol : colGet (applyToNumeric (applyBinary (applyCategorical
        (fillColumns CHURN_FEATURES (normalize_payload payload))))) c =
        (if c ∈ CATEGORICAL_DUMMIES then PyVal.str ("<na>".toList) else PyVal.nan) := by
      unfold colGet applyToNumeric applyBinary applyCategorical
      rw [find?_map_keyed _ hkey3, find?_map_keyed _ hkey2, find?_map_keyed _ hkey1,
        hfill]
      by_cases hcat : c ∈ CATEGORICAL_DUMMIES
      · have hnotbin : c ∉ BINARY_MAPPINGS :=
          (by decide : ∀ x ∈ CATEGORICAL_DUMMIES, x ∉ BINARY_MAPPINGS) c hcat
        simp only [Option.map_some', if_pos hcat, if_neg hnotbin]
        decide
      · by_cases hbin : c ∈ BINARY_MAPPINGS
        · simp only [Option.map_some', if_neg hcat, if_pos hbin]
          decide
        · simp only [Option.map_some', if_neg hcat, if_neg hbin]
          decide
    refine ⟨fun hcat => ?_, fun hncat => ?_⟩
    · have : (c, PyVal.str ("<na>".toList)) =
          (c, colGet (applyToNumeric (applyBinary (applyCategorical
            (fillColumns CHURN_FEATURES (normalize_payload payload))))) c) := by
        rw [hcol, if_pos hcat]
      rw [this]
      simp only [prepare_features]
      exact List.mem_map.mpr ⟨c, hc, rfl⟩
    · have : (c, PyVal.nan) =
          (c, colGet (applyToNumeric (applyBinary (applyCategorical
            (fillColumns CHURN_FEATURES (normalize_payload payload))))) c) := by
        rw [hcol, if_neg hncat]
      rw [this]
      simp only [prepare_features]
      exact List.mem_map.mpr ⟨c, hc, rfl⟩

/-- Witness for the amended C7: a payload with one known feature (`"Age"`)
and one unknown key (`"Employee Number"`): the columns are exactly
`CHURN_FEATURES`, the absent categorical `businesstravel` is the string
`"<na>"`, the absent binary `overtime` is `NaN`, the absent numeric
`dailyrate` is `NaN`, and the unknown normalized key `employeenumber` is
dropped. -/
theorem prepare_features_encodes_witness :
    (prepare_features [("Age".toList, PyVal.int 41),
        ("Employee Number".toList, PyVal.int 7)]).map Prod.fst = CHURN_FEATURES ∧
    ("businesstravel".toList, PyVal.str ("<na>".toList)) ∈
      prepare_features [("Age".toList, PyVal.int 41),
        ("Employee Number".toList, PyVal.int 7)] ∧
    ("overtime".toList, PyVal.nan) ∈
      prepare_features [("Age".toList, PyVal.int 41),
        ("Employee Number".toList, PyVal.int 7)] ∧
    ("dailyrate".toList, PyVal.nan) ∈
      prepare_features [("Age".toList, PyVal.int 41),
        ("Employee Number".toList, PyVal.int 7)] ∧
    ("employeenumber".toList, PyVal.int 7) ∉
      prepare_features [("Age".toList, PyVal.int 41),
        ("Employee Number".toList, PyVal.int 7)] := by
  have h := prepare_features_encodes [("Age".toList, PyVal.int 41),
    ("Employee Number".toList, PyVal.int 7)]
  refine ⟨h.1,
    (h.2.2 _ (by decide) (by decide)).1 (by decide),
    (h.2.2 _ (by decide) (by decide)).2 (by decide),
    (h.2.2 _ (by decide) (by decide)).2 (by decide),
    h.2.1 _ (by decide) _⟩

/-! ## Metrics registry read (`registry_entry`) -/

/-- The observable state of the registry file at `MODEL_REGISTRY_PATH`:
missing, present but not valid JSON (`json.load` raises
`JSONDecodeError`), or present with a parsed JSON value. -/
inductive RegistryFile where
  | absent : RegistryFile
  | unparsable : RegistryFile
  | parsed (data : Json) : RegistryFile

/-- Python `data.get(key, default)` on a parsed JSON object. -/
def jsonGet (members : List (String × Json)) (key : String) (dflt : Json) : Json :=
  match members.find? (fun kv => kv.1 == key) with
  | some kv => kv.2
  | none => dflt

/-- `registry_entry` from `common/model_utils.py`: `{}` when the file is
absent; `json.load` wrapped in `try/except json.JSONDecodeError` returning
`{}` on a parse failure; otherwise `data.get(model_key, {})`.  A parsed
value that is not an object makes `data.get` raise an `AttributeError`,
which is not caught. -/
def registry_entry (file : RegistryFile) (model_key : String) :
    Except String Json :=
  match file with
  | .absent => .ok (.obj [])
  | .unparsable => .ok (.obj [])
  | .parsed (.obj members) => .ok (jsonGet members model_key (.obj []))
  | .parsed _ => .error "AttributeError"

/-- Claim C8: for every model key, `registry_entry` returns the empty
mapping when the registry file is absent or fails to parse, and the
registry's entry for that key otherwise (empty when the key is missing);
in none of those cases does it raise. -/
theorem registry_entry_total (model_key : String) (members : List (String × Json)) :
    registry_entry .absent model_key = .ok (.obj []) ∧
    registry_entry .unparsable model_key = .ok (.obj []) ∧
    (∀ v, (model_key, v) ∈ members →
      (members.map Prod.fst).Nodup →
      registry_entry (.parsed (.obj members)) model_key = .ok v) ∧
    (model_key ∉ members.map Prod.fst →
      registry_entry (.parsed (.obj members)) model_key = .ok (.obj [])) := by
  refine ⟨rfl, rfl, ?_, ?_⟩
  · intro v hv hnodup
    simp only [registry_entry, jsonGet]
    have hfind : members.find? (fun kv => kv.1 == model_key) = some (model_key, v) := by
      induction members with
      | nil => exact absurd hv (List.not_mem_nil _)
      | cons hd tl ih =>
        rcases List.mem_cons.mp hv with hhd | htl
        · subst hhd
          simp [List.find?]
        · have hne : hd.1 ≠ model_key := by
            intro heq
            rw [List.map_cons, List.nodup_cons] at hnodup
            exact hnodup.1 (heq ▸ List.mem_map.mpr ⟨(model_key, v), htl, rfl⟩)
          have hbeq : (hd.1 == model_key) = false := by
            simp [hne]
          simp only [List.find?, hbeq]
          exact ih htl (by
            rw [List.map_cons, List.nodup_cons] at hnodup
            exact hnodup.2)
    rw [hfind]
  · intro habsent
    simp only [registry_entry, jsonGet]
    have hfind : members.find? (fun kv => kv.1 == model_key) = none := by
      rw [List.find?_eq_none]
      intro kv hkv hbeq
      rw [beq_iff_eq] at hbeq
      exact habsent (List.mem_map.mpr ⟨kv, hkv, hbeq⟩)
    rw [hfind]

/-- Witness for C8: on the registry `{"main": 1}` the entry for `"main"` is
`1` and the entry for `"canary"` is the empty mapping, while the absent and
unparsable registries both yield the empty mapping. -/
theorem registry_entry_total_witness :
    registry_entry .absent "main" = .ok (.obj []) ∧
    registry_entry (.parsed (.obj [("main", Json.num 1)])) "main" = .ok (Json.num 1) ∧
    registry_entry (.parsed (.obj [("main", Json.num 1)])) "canary" = .ok (.obj []) := by
  have hm := registry_entry_total "main" [("main", Json.num 1)]
  have hc := registry_entry_total "canary" [("main", Json.num 1)]
  refine ⟨hm.1, hm.2.2.1 (Json.num 1) (by simp) ?_, hc.2.2.2 ?_⟩
  · simp
  · simp

end Churn
